import Mathlib

/-!
Verification of the vfio-ioctls address translator and DMA-mapping layer.

The address translator (`get_host_address_range`, `get_region_host_address_range`
in `src/lib.rs`) is embedded directly.  The guest memory collaborator (the
external `vm-memory` crate) is embedded through the semantics of the trait
methods the source calls: `GuestMemoryRegion::check_address` (address valid iff
strictly below the region length), `GuestMemoryRegion::checked_offset`
(`base.checked_add(offset).and_then(check_address)`, where `checked_add` fails
on u64 overflow), `GuestMemoryRegion::get_host_address` (base host pointer plus
in-region offset, guarded by `check_address`), and
`GuestMemory::to_region_addr` / `find_region` (locate the region containing an
absolute guest address and return the region together with the region-relative
offset).  Addresses and pointers are modelled as `Nat` with the u64 overflow
guard made explicit where the source relies on `checked_add`.

The Container / Group / Device / DMA-bridge modules (`vfio_device.rs`,
`dma_mapping.rs`) are declared but not present in the inspected sources, so
those operations are modelled from the specification text; each such
definition carries a doc comment starting with `Modelled from the spec:`.
-/

namespace Vfio

/-- A contiguous guest memory region: guest base address, length in bytes and
host base pointer (all modelled as `Nat`). -/
structure MemRegion where
  guestBase : Nat
  len : Nat
  hostBase : Nat
deriving DecidableEq, Repr

/-- A guest memory is a sequence of (non-overlapping) regions. -/
abbrev GuestMem : Type := List MemRegion

/-- One past the largest u64 value: `checked_add` on u64 fails at this bound. -/
def U64LIMIT : Nat := 2 ^ 64

/-- Semantics of `GuestMemoryRegion::check_address` from the vm-memory
collaborator: a region-relative address is valid iff strictly below the
region length. -/
def check_address (r : MemRegion) (addr : Nat) : Option Nat :=
  if addr < r.len then some addr else none

/-- Semantics of `GuestMemoryRegion::checked_offset`:
`base.checked_add(offset as u64).and_then(|a| check_address(a))`. -/
def checked_offset (r : MemRegion) (base : Nat) (size : Nat) : Option Nat :=
  if base + size < U64LIMIT then check_address r (base + size) else none

/-- Semantics of `GuestMemoryRegion::get_host_address`: host base pointer plus
the region-relative offset, guarded by `check_address`. -/
def get_host_address (r : MemRegion) (addr : Nat) : Option Nat :=
  (check_address r addr).map (fun a => r.hostBase + a)

/-- Embedding of `get_region_host_address_range` (src/lib.rs:86-96):
`region.check_address(addr).and_then(|addr| region.checked_offset(addr, size)
.map(|_| region.get_host_address(addr).unwrap()))`.  The `unwrap` is modelled
by `Option.get!`. -/
def get_region_host_address_range (r : MemRegion) (addr : Nat) (size : Nat) :
    Option Nat :=
  (check_address r addr).bind (fun a =>
    (checked_offset r a size).map (fun _ => (get_host_address r a).get!))

/-- Semantics of `GuestMemory::find_region`: the region whose half-open guest
address range contains `addr`. -/
def find_region (mem : GuestMem) (addr : Nat) : Option MemRegion :=
  List.find? (fun r => decide (r.guestBase ≤ addr ∧ addr < r.guestBase + r.len)) mem

/-- Semantics of `GuestMemory::to_region_addr`: the containing region together
with the region-relative offset of `addr`. -/
def to_region_addr (mem : GuestMem) (addr : Nat) : Option (MemRegion × Nat) :=
  (find_region mem addr).map (fun r => (r, addr - r.guestBase))

/-- Embedding of `get_host_address_range` (src/lib.rs:104-111):
`mem.to_region_addr(addr).and_then(|(r, addr)| get_region_host_address_range(r, addr, size))`. -/
def get_host_address_range (mem : GuestMem) (addr : Nat) (size : Nat) :
    Option Nat :=
  (to_region_addr mem addr).bind (fun p => get_region_host_address_range p.1 p.2 size)

/-- The two-region guest memory of `test_get_host_address_range`
(src/lib.rs:119-147): regions `[0x0, 0x400)` and `[0x1000, 0x1400)`, with
concrete host base pointers standing in for the mmap results. -/
def testMem : GuestMem := [⟨0x0, 0x400, 0x10000⟩, ⟨0x1000, 0x400, 0x20000⟩]

/-- A single-region guest memory `[0x0, 0x400)` used for boundary analysis. -/
def cMem1 : GuestMem := [⟨0x0, 0x400, 0x7000⟩]

/-- `find_region` only returns a region whose guest address range contains the
requested address. -/
theorem find_region_spec {mem : GuestMem} {addr : Nat} {r : MemRegion}
    (h : find_region mem addr = some r) :
    r.guestBase ≤ addr ∧ addr < r.guestBase + r.len := by
  have := List.find?_some h
  simpa using this

/-- When the start address resolves to a region, `get_host_address_range`
reduces to `get_region_host_address_range` at the region-relative offset. -/
theorem get_host_address_range_eq_region {mem : GuestMem} {addr : Nat}
    {r : MemRegion} (h : find_region mem addr = some r) (size : Nat) :
    get_host_address_range mem addr size =
      get_region_host_address_range r (addr - r.guestBase) size := by
  simp [get_host_address_range, to_region_addr, h]

/-- Successful evaluation of `get_region_host_address_range`: when the offset
is in range and `offset + size` stays strictly below the region length (and
below the u64 overflow bound), the result is the host base plus the offset. -/
theorem get_region_host_address_range_some {r : MemRegion} {off size : Nat}
    (h1 : off < r.len) (h2 : off + size < U64LIMIT) (h3 : off + size < r.len) :
    get_region_host_address_range r off size = some (r.hostBase + off) := by
  simp [get_region_host_address_range, check_address, checked_offset,
    get_host_address, h1, h2, h3]

/-- Failing evaluation of `get_region_host_address_range`: when `offset + size`
reaches or exceeds the region length, the bound check rejects the range. -/
theorem get_region_host_address_range_none {r : MemRegion} {off size : Nat}
    (h3 : r.len ≤ off + size) : get_region_host_address_range r off size = none := by
  by_cases h1 : off < r.len
  · by_cases h2 : off + size < U64LIMIT
    · simp [get_region_host_address_range, check_address, checked_offset, h1, h2,
        Nat.not_lt.mpr h3]
    · simp [get_region_host_address_range, check_address, checked_offset, h1, h2]
  · simp [get_region_host_address_range, check_address, h1]

/-- Any pointer produced by `get_region_host_address_range` is the host base
plus the region-relative offset, independently of the size argument. -/
theorem get_region_host_address_range_inv {r : MemRegion} {off size p : Nat}
    (h : get_region_host_address_range r off size = some p) :
    p = r.hostBase + off := by
  by_cases h1 : off < r.len
  · by_cases h2 : off + size < U64LIMIT
    · by_cases h3 : off + size < r.len
      · rw [get_region_host_address_range_some h1 h2 h3] at h
        exact (Option.some_inj.mp h).symm
      · rw [get_region_host_address_range_none (Nat.not_lt.mp h3)] at h
        exact absurd h (by simp)
    · simp [get_region_host_address_range, check_address, checked_offset, h1, h2] at h
  · simp [get_region_host_address_range, check_address, h1] at h

/-- C1 (counterexample): the claim quantifies over every range fully inside a
region, but the range `[0x300, 0x400)` — fully inside the region `[0x0, 0x400)`
of `cMem1` — is rejected: the code requires `offset + size` to be strictly below
the region length, so a range ending exactly at the region bound yields `none`,
not `Some`. -/
theorem c1_counterexample :
    (0x0 ≤ 0x300 ∧ 0x300 + 0x100 ≤ 0x0 + 0x400) ∧
      get_host_address_range cMem1 0x300 0x100 = none := by
  constructor
  · decide
  · decide

/-- C1 (amended): for every guest address range resolving into one region whose
end stays strictly inside the region (`offset + size < len`, with the region
length below the u64 bound), `get_host_address_range` returns `some` pointer
equal to the region host base plus the address's offset within the region — so
the pointer's offset from the host base equals the guest offset, and pointers
for two such in-region addresses `a` and `a + k` differ by exactly `k`. -/
theorem c1_offset_correct (mem : GuestMem) (r : MemRegion) (addr size : Nat)
    (hfind : find_region mem addr = some r) (hlen : r.len < U64LIMIT)
    (hin : (addr - r.guestBase) + size < r.len) :
    get_host_address_range mem addr size =
      some (r.hostBase + (addr - r.guestBase)) := by
  rw [get_host_address_range_eq_region hfind]
  obtain ⟨hb, hlt⟩ := find_region_spec hfind
  exact get_region_host_address_range_some (by omega) (by omega) hin

/-- C1 witness: the amended theorem at `testMem`, address `0x1100`, size
`0x100` inside region `[0x1000, 0x1400)` with host base `0x20000`. -/
theorem c1_offset_correct_witness :
    get_host_address_range testMem 0x1100 0x100 =
      some (0x20000 + (0x1100 - 0x1000)) :=
  c1_offset_correct testMem ⟨0x1000, 0x400, 0x20000⟩ 0x1100 0x100
    (by decide) (by decide) (by decide)

/-- C2: every range that starts inside one region and whose end exceeds that
region's bound is rejected, and concretely on the two regions `[0x0, 0x400)`
and `[0x1000, 0x1400)` of `testMem`, the request `(0x1000, 0x500)` — whose
excess would land in address space past `0x1400` — returns `none`, while the
request `(0x1000, 0x100)` returns exactly the second region's host base. -/
theorem c2_reject_cross_region :
    (∀ (mem : GuestMem) (r : MemRegion) (addr size : Nat),
        find_region mem addr = some r → r.len < (addr - r.guestBase) + size →
        get_host_address_range mem addr size = none) ∧
      get_host_address_range testMem 0x1000 0x500 = none ∧
      get_host_address_range testMem 0x1000 0x100 = some 0x20000 := by
  refine ⟨fun mem r addr size hfind hover => ?_, by decide, by decide⟩
  rw [get_host_address_range_eq_region hfind]
  exact get_region_host_address_range_none (by omega)

/-- C2 witness: the universal part applied at `testMem`, address `0x1200`
inside region `[0x1000, 0x1400)` with size `0x500` running past the bound. -/
theorem c2_reject_cross_region_witness :
    get_host_address_range testMem 0x1200 0x500 = none :=
  c2_reject_cross_region.1 testMem ⟨0x1000, 0x400, 0x20000⟩ 0x1200 0x500
    (by decide) (by decide)

/-- C3 (counterexample): the claim's converse direction asserts that a range
whose end coincides exactly with the region's upper bound yields `Some`; but on
`cMem1` (single region `[0x0, 0x400)`) the full-region range `(0x0, 0x400)` is
fully contained with its end exactly at the bound, and the code returns
`none`. -/
theorem c3_counterexample :
    (0x0 ≤ 0x0 ∧ 0x0 + 0x400 ≤ 0x0 + 0x400) ∧
      get_host_address_range cMem1 0x0 0x400 = none := by
  constructor
  · decide
  · decide

/-- C3 (amended): `get_host_address_range` fails in exactly two cases — the
start address resolves to no region, or the region-relative `offset + size`
reaches or exceeds the containing region's length (the end must stay strictly
below the bound); conversely every range with `offset + size` strictly below
the region length yields `some` pointer. -/
theorem c3_failure_characterization (mem : GuestMem) (addr size : Nat) :
    (find_region mem addr = none → get_host_address_range mem addr size = none) ∧
      (∀ r : MemRegion, find_region mem addr = some r → r.len < U64LIMIT →
        (get_host_address_range mem addr size = none ↔
          r.len ≤ (addr - r.guestBase) + size)) := by
  constructor
  · intro h
    simp [get_host_address_range, to_region_addr, h]
  · intro r hfind hlen
    rw [get_host_address_range_eq_region hfind]
    obtain ⟨hb, hlt⟩ := find_region_spec hfind
    constructor
    · intro hnone
      by_contra hcontra
      rw [get_region_host_address_range_some (by omega) (by omega) (by omega)]
        at hnone
      exact absurd hnone (by simp)
    · exact get_region_host_address_range_none

/-- C3 witness: the characterization applied at `cMem1`, address `0x200`, size
`0x300`: since `0x400 ≤ 0x200 + 0x300`, the translation fails. -/
theorem c3_failure_characterization_witness :
    get_host_address_range cMem1 0x200 0x300 = none :=
  ((c3_failure_characterization cMem1 0x200 0x300).2 ⟨0x0, 0x400, 0x7000⟩
    (by decide) (by decide)).mpr (by decide)

/-- C8: the address translator is deterministic — two calls on equal inputs
return equal results.  Purity and absence of mutation are expressed by the
embedding itself: `get_host_address_range` is a pure function of the guest
memory, address and size, taking no state and returning none. -/
theorem c8_deterministic (mem mem' : GuestMem) (addr addr' size size' : Nat)
    (hm : mem = mem') (ha : addr = addr') (hs : size = size') :
    get_host_address_range mem addr size =
      get_host_address_range mem' addr' size' := by
  rw [hm, ha, hs]

/-- C8 witness: determinism applied at the concrete test memory. -/
theorem c8_deterministic_witness :
    get_host_address_range testMem 0x1000 0x100 =
      get_host_address_range testMem 0x1000 0x100 :=
  c8_deterministic testMem testMem 0x1000 0x1000 0x100 0x100 rfl rfl rfl

/-- C9: the `unwrap` in `get_region_host_address_range` is unreachable — once
`check_address` has returned `some a` for the same address, `get_host_address`
succeeds at `a`, and consequently `get_region_host_address_range` (whose
`unwrap` is modelled by `Option.get!`) agrees with the total variant that binds
through `get_host_address` instead of unwrapping. -/
theorem c9_no_panic (r : MemRegion) (addr size a : Nat)
    (h : check_address r addr = some a) :
    (get_host_address r a).isSome = true ∧
      get_region_host_address_range r addr size =
        (check_address r addr).bind (fun x =>
          (checked_offset r x size).bind (fun _ => get_host_address r x)) := by
  have hlt : addr < r.len ∧ a = addr := by
    by_cases hc : addr < r.len
    · simp [check_address, hc] at h
      exact ⟨hc, h.symm⟩
    · simp [check_address, hc] at h
  obtain ⟨hc, rfl⟩ := hlt
  refine ⟨by simp [get_host_address, check_address, hc], ?_⟩
  cases hoff : checked_offset r a size with
  | none => simp [get_region_host_address_range, check_address, hc, hoff]
  | some b =>
    simp [get_region_host_address_range, check_address, get_host_address,
      Option.get!, hc, hoff]

/-- C9 witness: the no-panic theorem at the region `[0x0, 0x400)` with offset
`0x10` and size `0x20`. -/
theorem c9_no_panic_witness :
    (get_host_address ⟨0x0, 0x400, 0x7000⟩ 0x10).isSome = true ∧
      get_region_host_address_range ⟨0x0, 0x400, 0x7000⟩ 0x10 0x20 =
        (check_address ⟨0x0, 0x400, 0x7000⟩ 0x10).bind (fun x =>
          (checked_offset ⟨0x0, 0x400, 0x7000⟩ x 0x20).bind (fun _ =>
            get_host_address ⟨0x0, 0x400, 0x7000⟩ x)) :=
  c9_no_panic ⟨0x0, 0x400, 0x7000⟩ 0x10 0x20 0x10 (by decide)

/-- C10: the pointer returned by `get_host_address_range` depends only on the
memory and the start address, never on the size — two successful calls at the
same address with different sizes return the same pointer. -/
theorem c10_size_independent (mem : GuestMem) (addr s1 s2 p1 p2 : Nat)
    (h1 : get_host_address_range mem addr s1 = some p1)
    (h2 : get_host_address_range mem addr s2 = some p2) : p1 = p2 := by
  cases hfind : find_region mem addr with
  | none => simp [get_host_address_range, to_region_addr, hfind] at h1
  | some r =>
    rw [get_host_address_range_eq_region hfind] at h1 h2
    rw [get_region_host_address_range_inv h1, get_region_host_address_range_inv h2]

/-- C10 witness: two successful calls at `0x1000` with sizes `0x100` and
`0x200` both return the pointer `0x20000`. -/
theorem c10_size_independent_witness : (0x20000 : Nat) = 0x20000 :=
  c10_size_independent testMem 0x1000 0x100 0x200 0x20000 0x20000
    (by decide) (by decide)

/-- Modelled from the spec: the closed error taxonomy of §7 (restricted to the
kinds exercised here); the modules `vfio_device.rs` and `dma_mapping.rs` that
realize it are declared in src/lib.rs but their sources are not inspected. -/
inductive VfioErr where
  | Overlap
  | NotMapped
  | StillInUse
  | InvalidArgument
  | NotOpen
deriving DecidableEq, Repr

/-- Modelled from the spec: a DMA Mapping Entry (§3) — an active translation
from a device-visible I/O address (`iova`) of `size` bytes to a backing host
address. -/
structure DmaEntry where
  iova : Nat
  size : Nat
  host : Nat
deriving DecidableEq, Repr

/-- Modelled from the spec: the Container's bookkeeping relevant to DMA — the
set of active DMA Mapping Entries (§3, §4.4); the realizing module
`vfio_device.rs` is not among the inspected sources. -/
structure Container where
  entries : List DmaEntry
deriving DecidableEq, Repr

/-- Two DMA entries overlap when their half-open iova ranges intersect. -/
def overlaps (a b : DmaEntry) : Bool :=
  decide (a.iova < b.iova + b.size) && decide (b.iova < a.iova + a.size)

/-- Modelled from the spec: `Container.map_dma` (§4.4) — installs a translation
entry, failing with `Overlap` if its iova range collides with an existing
active entry. -/
def map_dma (c : Container) (iova size host : Nat) : Except VfioErr Container :=
  if c.entries.any (fun e => overlaps e ⟨iova, size, host⟩) then
    Except.error VfioErr.Overlap
  else Except.ok ⟨⟨iova, size, host⟩ :: c.entries⟩

/-- Modelled from the spec: the exact-or-superset rule (§3) — an unmap request
matches an entry when the entry's iova range lies within the requested range
(an exact iova/size match is the boundary case of this containment). -/
def unmapMatches (iova size : Nat) (e : DmaEntry) : Bool :=
  decide (iova ≤ e.iova) && decide (e.iova + e.size ≤ iova + size)

/-- Modelled from the spec: `Container.unmap_dma` (§4.4) — removes the matched
translation entries per the exact-or-superset rule, failing with `NotMapped`
when no active entry matches. -/
def unmap_dma (c : Container) (iova size : Nat) : Except VfioErr Container :=
  if c.entries.any (unmapMatches iova size) then
    Except.ok ⟨c.entries.filter (fun e => !(unmapMatches iova size e))⟩
  else Except.error VfioErr.NotMapped

/-- One request against the Container's DMA surface. -/
inductive DmaOp where
  | map (iova size host : Nat)
  | unmap (iova size : Nat)
deriving DecidableEq, Repr

/-- Apply one request; a rejected request leaves the Container unchanged. -/
def applyOp (c : Container) : DmaOp → Container
  | DmaOp.map iova size host =>
    match map_dma c iova size host with
    | Except.ok c' => c'
    | Except.error _ => c
  | DmaOp.unmap iova size =>
    match unmap_dma c iova size with
    | Except.ok c' => c'
    | Except.error _ => c

/-- Run a sequence of DMA requests from a starting Container state. -/
def runOps (c : Container) (ops : List DmaOp) : Container :=
  ops.foldl applyOp c

/-- The §3 invariant: no two active entries overlap in iova space. -/
def dmaDisjoint (c : Container) : Prop :=
  c.entries.Pairwise (fun a b => overlaps a b = false)

/-- Overlap of iova ranges is symmetric. -/
theorem overlaps_symm (a b : DmaEntry) : overlaps a b = overlaps b a := by
  unfold overlaps
  exact Bool.and_comm _ _

/-- A successful `map_dma` preserves the no-overlap invariant. -/
theorem dmaDisjoint_map_dma {c c' : Container} {iova size host : Nat}
    (hInv : dmaDisjoint c) (h : map_dma c iova size host = Except.ok c') :
    dmaDisjoint c' := by
  unfold map_dma at h
  split at h
  · exact absurd h (by simp)
  · rename_i hc
    have hc' : ∀ e ∈ c.entries, overlaps e ⟨iova, size, host⟩ = false := by
      intro e he
      by_contra hne
      exact hc (List.any_eq_true.mpr ⟨e, he, by simpa using hne⟩)
    injection h with h2
    subst h2
    exact List.pairwise_cons.mpr
      ⟨fun b hb => by rw [overlaps_symm]; exact hc' b hb, hInv⟩

/-- A successful `unmap_dma` preserves the no-overlap invariant. -/
theorem dmaDisjoint_unmap_dma {c c' : Container} {iova size : Nat}
    (hInv : dmaDisjoint c) (h : unmap_dma c iova size = Except.ok c') :
    dmaDisjoint c' := by
  unfold unmap_dma at h
  split at h
  · injection h with h2
    subst h2
    exact hInv.filter _
  · exact absurd h (by simp)

/-- Every single DMA request preserves the no-overlap invariant. -/
theorem dmaDisjoint_applyOp {c : Container} (op : DmaOp)
    (hInv : dmaDisjoint c) : dmaDisjoint (applyOp c op) := by
  cases op with
  | map iova size host =>
    simp only [applyOp]
    split
    · rename_i c' h; exact dmaDisjoint_map_dma hInv h
    · exact hInv
  | unmap iova size =>
    simp only [applyOp]
    split
    · rename_i c' h; exact dmaDisjoint_unmap_dma hInv h
    · exact hInv

/-- Every sequence of DMA requests preserves the no-overlap invariant. -/
theorem dmaDisjoint_runOps (ops : List DmaOp) (c : Container)
    (hInv : dmaDisjoint c) : dmaDisjoint (runOps c ops) := by
  induction ops generalizing c with
  | nil => simpa [runOps] using hInv
  | cons o os ih =>
    have hstep : runOps c (o :: os) = runOps (applyOp c o) os := by
      simp [runOps]
    rw [hstep]
    exact ih _ (dmaDisjoint_applyOp o hInv)

/-- C4: within one Container no two active DMA Mapping Entries overlap in iova
space after any sequence of map/unmap requests from the empty Container; a
`map_dma` whose iova range overlaps an existing active entry fails with
`Overlap`; and concretely two non-overlapping `map_dma` calls (`[0x0, 0x1000)`
and `[0x2000, 0x3000)`) both succeed while a third overlapping one
(`[0x800, 0x1800)`) fails with `Overlap`. -/
theorem c4_no_overlap_invariant :
    (∀ ops : List DmaOp, dmaDisjoint (runOps ⟨[]⟩ ops)) ∧
      (∀ (c : Container) (iova size host : Nat) (e : DmaEntry),
        e ∈ c.entries → overlaps e ⟨iova, size, host⟩ = true →
        map_dma c iova size host = Except.error VfioErr.Overlap) ∧
      map_dma ⟨[]⟩ 0x0 0x1000 0xA000 = Except.ok ⟨[⟨0x0, 0x1000, 0xA000⟩]⟩ ∧
      map_dma ⟨[⟨0x0, 0x1000, 0xA000⟩]⟩ 0x2000 0x1000 0xB000 =
        Except.ok ⟨[⟨0x2000, 0x1000, 0xB000⟩, ⟨0x0, 0x1000, 0xA000⟩]⟩ ∧
      map_dma ⟨[⟨0x2000, 0x1000, 0xB000⟩, ⟨0x0, 0x1000, 0xA000⟩]⟩
          0x800 0x1000 0xC000 = Except.error VfioErr.Overlap := by
  refine ⟨fun ops => dmaDisjoint_runOps ops ⟨[]⟩ List.Pairwise.nil,
    ?_, rfl, rfl, rfl⟩
  intro c iova size host e he hov
  unfold map_dma
  rw [if_pos (List.any_eq_true.mpr ⟨e, he, hov⟩)]

/-- C4 witness: the invariant at a concrete request sequence, and the Overlap
failure applied at a concrete Container and entry. -/
theorem c4_no_overlap_invariant_witness :
    dmaDisjoint (runOps ⟨[]⟩ [DmaOp.map 0x0 0x1000 0xA000,
      DmaOp.map 0x2000 0x1000 0xB000, DmaOp.unmap 0x0 0x1000]) ∧
      map_dma ⟨[⟨0x0, 0x1000, 0xA000⟩]⟩ 0x800 0x1000 0xC000 =
        Except.error VfioErr.Overlap :=
  ⟨c4_no_overlap_invariant.1 _,
    c4_no_overlap_invariant.2.1 ⟨[⟨0x0, 0x1000, 0xA000⟩]⟩ 0x800 0x1000 0xC000
      ⟨0x0, 0x1000, 0xA000⟩ (by simp) (by decide)⟩

/-- C5: `unmap_dma` at an iova/size exactly matching an active entry succeeds
and that entry is absent from the resulting active set; `unmap_dma` at a range
disjoint from every active (positive-size) entry — in particular at an iova
that was never mapped — fails with `NotMapped`. -/
theorem c5_unmap_exact_or_not_mapped :
    ∀ (c : Container) (iova size host : Nat),
      ((⟨iova, size, host⟩ : DmaEntry) ∈ c.entries →
        unmap_dma c iova size = Except.ok
            ⟨c.entries.filter (fun e => !(unmapMatches iova size e))⟩ ∧
          (⟨iova, size, host⟩ : DmaEntry) ∉
            c.entries.filter (fun e => !(unmapMatches iova size e))) ∧
      ((∀ e ∈ c.entries, 0 < e.size) →
        (∀ e ∈ c.entries, e.iova + e.size ≤ iova ∨ iova + size ≤ e.iova) →
        unmap_dma c iova size = Except.error VfioErr.NotMapped) := by
  intro c iova size host
  constructor
  · intro hmem
    have hself : unmapMatches iova size ⟨iova, size, host⟩ = true := by
      simp [unmapMatches]
    refine ⟨?_, ?_⟩
    · unfold unmap_dma
      rw [if_pos (List.any_eq_true.mpr ⟨_, hmem, hself⟩)]
    · intro hcontra
      have hkept := (List.mem_filter.mp hcontra).2
      rw [hself] at hkept
      simp at hkept
  · intro hpos hdisj
    have hno : ∀ e ∈ c.entries, ¬ unmapMatches iova size e = true := by
      intro e he hmatch
      have h1 := hpos e he
      have h2 := hdisj e he
      simp [unmapMatches] at hmatch
      omega
    have hfalse : ¬ c.entries.any (unmapMatches iova size) = true := by
      intro hany
      obtain ⟨e, he, hm⟩ := List.any_eq_true.mp hany
      exact hno e he hm
    unfold unmap_dma
    rw [if_neg hfalse]

/-- C5 witness: exact-match unmap on a one-entry Container, and `NotMapped` on
a never-mapped iova of the same Container. -/
theorem c5_unmap_exact_or_not_mapped_witness :
    (unmap_dma ⟨[⟨0x1000, 0x100, 0x5000⟩]⟩ 0x1000 0x100 = Except.ok
        ⟨List.filter (fun e => !(unmapMatches 0x1000 0x100 e))
          [⟨0x1000, 0x100, 0x5000⟩]⟩ ∧
      (⟨0x1000, 0x100, 0x5000⟩ : DmaEntry) ∉
        List.filter (fun e => !(unmapMatches 0x1000 0x100 e))
          [⟨0x1000, 0x100, 0x5000⟩]) ∧
      unmap_dma ⟨[⟨0x1000, 0x100, 0x5000⟩]⟩ 0x9000 0x10 =
        Except.error VfioErr.NotMapped :=
  ⟨(c5_unmap_exact_or_not_mapped ⟨[⟨0x1000, 0x100, 0x5000⟩]⟩ 0x1000 0x100
      0x5000).1 (by simp),
    (c5_unmap_exact_or_not_mapped ⟨[⟨0x1000, 0x100, 0x5000⟩]⟩ 0x9000 0x10
      0).2 (by decide) (by decide)⟩

/-- Modelled from the spec: the DMA Mapping Bridge's map operation (§4.6,
realized by the uninspected `dma_mapping.rs` implementing the
`ExternalDmaMapping` trait of src/lib.rs:78-84) — resolve `gpa`/`size` through
the Address Translator; on failure return an invalid-argument error without
touching the Container or the kernel; on success call `Container.map_dma` with
the resolved host range and the given iova. -/
def bridge_map (mem : GuestMem) (c : Container) (iova gpa size : Nat) :
    Except VfioErr Container :=
  match get_host_address_range mem gpa size with
  | none => Except.error VfioErr.InvalidArgument
  | some host => map_dma c iova size host

/-- C6: `bridge_map` first resolves the `gpa`/`size` range through the Address
Translator; on translation failure it returns the invalid-argument error (and
no Container state change occurs — the error result carries the state
unchanged and `map_dma` is never consulted); on success it is exactly
`Container.map_dma` at the resolved host range and the given iova. -/
theorem c6_translate_before_map :
    ∀ (mem : GuestMem) (c : Container) (iova gpa size : Nat),
      (get_host_address_range mem gpa size = none →
        bridge_map mem c iova gpa size = Except.error VfioErr.InvalidArgument) ∧
      (∀ host, get_host_address_range mem gpa size = some host →
        bridge_map mem c iova gpa size = map_dma c iova size host) := by
  intro mem c iova gpa size
  constructor
  · intro h
    simp [bridge_map, h]
  · intro host h
    simp [bridge_map, h]

/-- C6 witness: translation failure on the empty guest memory yields the
invalid-argument error, and successful translation on `testMem` reduces the
bridge to `map_dma` at the resolved host pointer `0x20000`. -/
theorem c6_translate_before_map_witness :
    bridge_map [] ⟨[]⟩ 0x10 0x20 0x30 = Except.error VfioErr.InvalidArgument ∧
      bridge_map testMem ⟨[]⟩ 0x10 0x1000 0x100 = map_dma ⟨[]⟩ 0x10 0x100 0x20000 :=
  ⟨(c6_translate_before_map [] ⟨[]⟩ 0x10 0x20 0x30).1 rfl,
    (c6_translate_before_map testMem ⟨[]⟩ 0x10 0x1000 0x100).2 0x20000 (by decide)⟩

/-- Modelled from the spec: the open Container/Group/Device handle triple with
the child counts of §5 (a child count, decremented on child close, must be
zero before the parent's close succeeds); realized by the uninspected
`vfio_device.rs`. -/
structure HandleTree where
  containerOpen : Bool
  groupOpen : Bool
  deviceOpen : Bool
  containerChildren : Nat
  groupChildren : Nat
deriving DecidableEq, Repr

/-- Modelled from the spec: closing the Device — a leaf handle with no
children, so its close always succeeds and decrements its Group's child
count. -/
def closeDevice (s : HandleTree) : Except VfioErr HandleTree :=
  if s.deviceOpen then
    Except.ok ⟨s.containerOpen, s.groupOpen, false,
      s.containerChildren, s.groupChildren - 1⟩
  else Except.error VfioErr.NotOpen

/-- Modelled from the spec: closing the Group — fails with `StillInUse` while
a Device it issued is still open (non-zero child count); on success decrements
the Container's child count. -/
def closeGroup (s : HandleTree) : Except VfioErr HandleTree :=
  if s.groupOpen then
    if s.groupChildren = 0 then
      Except.ok ⟨s.containerOpen, false, s.deviceOpen,
        s.containerChildren - 1, s.groupChildren⟩
    else Except.error VfioErr.StillInUse
  else Except.error VfioErr.NotOpen

/-- Modelled from the spec: closing the Container — fails with `StillInUse`
while a Group it issued is still open (non-zero child count). -/
def closeContainer (s : HandleTree) : Except VfioErr HandleTree :=
  if s.containerOpen then
    if s.containerChildren = 0 then
      Except.ok ⟨false, s.groupOpen, s.deviceOpen,
        s.containerChildren, s.groupChildren⟩
    else Except.error VfioErr.StillInUse
  else Except.error VfioErr.NotOpen

/-- The state after opening a Container, one Group from it and one Device from
the Group. -/
def allOpen : HandleTree := ⟨true, true, true, 1, 1⟩

/-- C7: closing a Group while the Device it issued is still open fails with
`StillInUse`; a Group or Container close succeeds only when its child count is
zero; and closing the Device first, then the Group, then the Container
succeeds in that order. -/
theorem c7_close_order :
    closeGroup allOpen = Except.error VfioErr.StillInUse ∧
      (∀ s s' : HandleTree, closeGroup s = Except.ok s' → s.groupChildren = 0) ∧
      (∀ s s' : HandleTree, closeContainer s = Except.ok s' →
        s.containerChildren = 0) ∧
      closeDevice allOpen = Except.ok ⟨true, true, false, 1, 0⟩ ∧
      closeGroup ⟨true, true, false, 1, 0⟩ =
        Except.ok ⟨true, false, false, 0, 0⟩ ∧
      closeContainer ⟨true, false, false, 0, 0⟩ =
        Except.ok ⟨false, false, false, 0, 0⟩ := by
  refine ⟨rfl, ?_, ?_, rfl, rfl, rfl⟩
  · intro s s' h
    unfold closeGroup at h
    split at h
    · split at h
      · rename_i hc
        exact hc
      · exact absurd h (by simp)
    · exact absurd h (by simp)
  · intro s s' h
    unfold closeContainer at h
    split at h
    · split at h
      · rename_i hc
        exact hc
      · exact absurd h (by simp)
    · exact absurd h (by simp)

/-- C7 witness: the only-when-zero part applied at the state where the Device
has been closed and the Group close succeeds. -/
theorem c7_close_order_witness :
    (HandleTree.mk true true false 1 0).groupChildren = 0 :=
  c7_close_order.2.1 ⟨true, true, false, 1, 0⟩ ⟨true, false, false, 0, 0⟩ rfl

end Vfio
